import Mathlib

/-!
Verification of the captain-hook decision cascade against its specification.

The definitions below are a shallow embedding of the Rust sources:
`src/cascade/path_policy.rs`, `src/cascade/mod.rs`, `src/cascade/supervisor.rs`,
`src/cascade/human.rs`, `src/cli/check.rs` and `src/config/roles.rs`.
Machine floats (decision confidences) are modelled as rationals; wall-clock
time in the human tier's poll loop is modelled as a poll budget; glob sets
(the external `globset` crate) are modelled as abstract membership functions
on path strings.
-/

namespace CaptainHook

/-- Modelled from the spec: `src/decision.rs` is not in the source tree.
§3 of the spec defines `Decision` as one of `allow`, `deny`, `ask`. -/
inductive Decision where
  | allow
  | ask
  | deny
deriving DecidableEq, Repr

/-- Modelled from the spec: `src/decision.rs` is not in the source tree.
§3 orders decisions by restrictiveness, `allow < ask < deny`; the numeric
precedence is what `path_policy.rs` compares via `Decision::precedence()`. -/
def Decision.precedence : Decision → Nat
  | .allow => 0
  | .ask => 1
  | .deny => 2

/-- Modelled from the spec: lowercase serialization of a decision
(`allow` / `deny` / `ask`), used in human-readable reason strings. -/
def Decision.display : Decision → String
  | .allow => "allow"
  | .ask => "ask"
  | .deny => "deny"

/-- Modelled from the spec: `src/scope.rs` is not in the source tree.
§3 defines `ScopeLevel` as `org ⊐ project ⊐ user ⊐ role`. -/
inductive ScopeLevel where
  | org
  | project
  | user
  | role
deriving DecidableEq, Repr

/-- Modelled from the spec: `src/decision.rs` is not in the source tree.
The tier tags carried by decision records; all seven variants appear in
the `src/cascade` sources (`metadata.tier` construction and the runner's
persistence match). -/
inductive DecisionTier where
  | pathPolicy
  | exactCache
  | tokenJaccard
  | embeddingSimilarity
  | supervisor
  | human
  | default
deriving DecidableEq, Repr

/-- `CacheKey` from `src/decision.rs` (not in the source tree); its three
fields are visible at every construction site in `src/cascade`. -/
structure CacheKey where
  sanitized_input : String
  tool : String
  role : String
deriving DecidableEq, Repr

/-- `DecisionMetadata` from `src/decision.rs` (not in the source tree); its
fields are visible at every construction site in `src/cascade`.
`confidence` (an `f64` in Rust) is modelled as a rational. -/
structure DecisionMetadata where
  tier : DecisionTier
  confidence : ℚ
  reason : String
  matched_key : Option CacheKey
  similarity_score : Option ℚ
deriving DecidableEq, Repr

/-- `DecisionRecord` from `src/decision.rs` (not in the source tree); its
fields are visible at every construction site in `src/cascade`.
The `chrono` timestamp is modelled as a natural number. -/
structure DecisionRecord where
  key : CacheKey
  decision : Decision
  metadata : DecisionMetadata
  timestamp : Nat
  scope : ScopeLevel
  file_path : Option String
  session_id : String
deriving DecidableEq, Repr

/-- `CompiledPathPolicy` from `src/config/roles.rs`. The compiled `GlobSet`
matchers (external `globset` crate) are modelled as abstract membership
functions on path strings; `is_match` is function application. -/
structure CompiledPathPolicy where
  allow_write : String → Bool
  deny_write : String → Bool
  allow_read : String → Bool
  sensitive_ask_write : String → Bool

/-- `RoleDefinition` from `src/config/roles.rs`, restricted to the fields the
cascade reads (`name`, `description`). -/
structure RoleDefinition where
  name : String
  description : String
deriving DecidableEq, Repr

/-- `SessionContext` from `src/session.rs` (not in the source tree),
restricted to the fields the cascade sources read. -/
structure SessionContext where
  user : String
  org : String
  project : String
  role : Option RoleDefinition
  path_policy : Option CompiledPathPolicy
  agent_prompt_path : Option String
  task_description : Option String
  disabled : Bool

/-- A tool input: `raw` is the `serde_json::to_string` serialization fed to
the sanitizer, `fields` models `tool_input.get(k).and_then(|v| v.as_str())`. -/
structure ToolInput where
  raw : String
  fields : String → Option String

/-- `CascadeInput` from `src/cascade/mod.rs`. -/
structure CascadeInput where
  session : SessionContext
  tool_name : String
  tool_input : ToolInput
  sanitized_input : String
  file_path : Option String
  cwd : Option String

/-- `path_policy.rs` lines 142-143: read-like tools are `Read`, `Glob`, `Grep`. -/
def isReadOnlyTool (tool_name : String) : Bool :=
  tool_name = "Read" || tool_name = "Glob" || tool_name = "Grep"

/-- The per-path if/else chain of `PathPolicyEngine::evaluate`
(`path_policy.rs` lines 150-174): for read-like tools check
`sensitive_ask_write`, then `allow_read`, else deny; for write-like tools
check `sensitive_ask_write`, then `deny_write`, then `allow_write`, else
fall through. `none` means the path produced no verdict. -/
def pathVerdict (policy : CompiledPathPolicy) (is_read_only : Bool)
    (path : String) : Option Decision :=
  if is_read_only then
    if policy.sensitive_ask_write path then some .ask
    else if policy.allow_read path then none
    else some .deny
  else
    if policy.sensitive_ask_write path then some .ask
    else if policy.deny_write path then some .deny
    else if policy.allow_write path then some .allow
    else none

/-- The reason string attached to the worst-offending path
(`path_policy.rs` lines 184-188). -/
def verdictReason (d : Decision) (path : String) : String :=
  match d with
  | .deny => "path '" ++ path ++ "' denied by role path policy"
  | .ask => "path '" ++ path ++ "' matches sensitive path pattern"
  | .allow => "path '" ++ path ++ "' allowed by role path policy"

/-- The accumulator of the most-restrictive-wins loop
(`path_policy.rs` lines 146-148): `worst_decision`, `worst_path`,
`worst_reason`. -/
structure WorstAcc where
  worst_decision : Option Decision
  worst_path : String
  worst_reason : String

/-- One iteration of the loop in `path_policy.rs` lines 150-191: compute the
path's verdict; if it dominates the current worst (no worst yet, or strictly
higher precedence) replace the accumulator. -/
def worstStep (policy : CompiledPathPolicy) (is_read_only : Bool)
    (acc : WorstAcc) (path : String) : WorstAcc :=
  match pathVerdict policy is_read_only path with
  | none => acc
  | some d =>
    let dominated : Bool :=
      match acc.worst_decision with
      | none => true
      | some current => decide (current.precedence < d.precedence)
    if dominated then ⟨some d, path, verdictReason d path⟩ else acc

/-- The full most-restrictive-wins loop over the extracted paths
(`path_policy.rs` lines 146-191). -/
def worstOf (policy : CompiledPathPolicy) (is_read_only : Bool)
    (paths : List String) : WorstAcc :=
  paths.foldl (worstStep policy is_read_only) ⟨none, "", ""⟩

/-- The decision the path-policy tier reports for a list of extracted,
relativized paths (`path_policy.rs` lines 193-223): `some d` means the tier
resolves with decision `d`, `none` means it falls through. -/
def pathPolicyDecision (policy : CompiledPathPolicy) (is_read_only : Bool)
    (paths : List String) : Option Decision :=
  (worstOf policy is_read_only paths).worst_decision

/-- Written from the spec's words (§4.2), for comparison with the code: the
most restrictive of two decisions under the order `allow < ask < deny`. -/
def specMostRestrictivePair (a b : Decision) : Decision :=
  if a.precedence < b.precedence then b else a

/-- Written from the spec's words (§4.2 and §8), for comparison with the
code: `max(allow<ask<deny)` over a list of per-path verdicts, `none` when
the list is empty. -/
def specMostRestrictive (verdicts : List Decision) : Option Decision :=
  verdicts.foldl
    (fun acc d =>
      match acc with
      | none => some d
      | some c => some (specMostRestrictivePair c d))
    none

/-- `CaptainHookError` from `src/error.rs` (not in the source tree); the
variants and their payloads are visible at the construction sites in the
`src/cascade` and `src/cli` sources (§7 of the spec lists the taxonomy). -/
inductive CaptainHookError where
  | configParse (reason : String)
  | globPattern (pattern : String) (reason : String)
  | io (reason : String)
  | ipc (reason : String)
  | socketNotFound (path : String)
  | api (status : Nat) (body : String)
  | supervisor (reason : String)
  | supervisorTimeout (timeout_secs : Nat)
  | humanTimeout (timeout_secs : Nat)
  | registrationRequired
deriving DecidableEq, Repr

/-- The persistence side-effects of one cascade evaluation. Modelled from the
spec: the JSONL store (`src/storage`) and the three in-memory indices
(`src/cascade/cache.rs`, `token_sim.rs`, `embed_sim.rs`) are not in the
source tree; each is modelled as the log of records inserted into it. -/
structure RunnerState where
  storage : List DecisionRecord
  exact_cache : List DecisionRecord
  token_index : List DecisionRecord
  embed_index : List DecisionRecord
deriving DecidableEq, Repr

/-- `ExactCache::insert` as invoked by the runner (`mod.rs` line 125). -/
def insertExact (st : RunnerState) (r : DecisionRecord) : RunnerState :=
  { st with exact_cache := st.exact_cache ++ [r] }

/-- `CascadeRunner::persist_decision` (`mod.rs` lines 194-211): save to JSONL
storage, then insert into the exact cache, the token-Jaccard index and the
embedding index. -/
def persist_decision (st : RunnerState) (r : DecisionRecord) : RunnerState :=
  { storage := st.storage ++ [r]
    exact_cache := st.exact_cache ++ [r]
    token_index := st.token_index ++ [r]
    embed_index := st.embed_index ++ [r] }

/-- A cascade tier as the runner sees it: `CascadeTier::evaluate` returns
`Ok(Some(record))` to resolve, `Ok(None)` to fall through, or an error
(`mod.rs` lines 33-43). -/
def Tier : Type :=
  CascadeInput → Except CaptainHookError (Option DecisionRecord)

/-- `mod.rs` lines 108-114: fill in `session_id` on the record if unset,
using the `org/project/user` format. -/
def fillSessionId (session : SessionContext) (r : DecisionRecord) :
    DecisionRecord :=
  if r.session_id = "" then
    { r with session_id :=
        session.org ++ "/" ++ session.project ++ "/" ++ session.user }
  else r

/-- The per-record persistence dispatch of the runner (`mod.rs` lines
117-131): an `ExactCache` record persists nothing, a `TokenJaccard` or
`EmbeddingSimilarity` record is inserted into the exact cache only, every
other record goes through `persist_decision`. -/
def persistStep (st : RunnerState) (r : DecisionRecord) : RunnerState :=
  match r.metadata.tier with
  | .exactCache => st
  | .tokenJaccard => insertExact st r
  | .embeddingSimilarity => insertExact st r
  | _ => persist_decision st r

/-- The tier loop of `CascadeRunner::evaluate_with_cwd` (`mod.rs` lines
105-135): run tiers in order; the first tier to return a record wins, its
`session_id` is filled in and its persistence dispatch applied. `Ok(none)`
means every tier fell through. -/
def cascadeLoop (session : SessionContext) (tiers : List Tier)
    (input : CascadeInput) (st : RunnerState) :
    Except CaptainHookError (Option (DecisionRecord × RunnerState)) :=
  match tiers with
  | [] => .ok none
  | t :: rest =>
    match t input with
    | .error e => .error e
    | .ok none => cascadeLoop session rest input st
    | .ok (some record0) =>
      let record := fillSessionId session record0
      .ok (some (record, persistStep st record))

/-- `mod.rs` lines 138-142 (and the same pattern elsewhere): the role name
is the session's role name, or `"*"` when no role is declared. -/
def roleNameOf (session : SessionContext) : String :=
  (session.role.map (fun r => r.name)).getD "*"

/-- The `Default`-tier record built when no tier resolves
(`mod.rs` lines 144-162). -/
def defaultRecord (session : SessionContext) (tool_name : String)
    (sanitized_input : String) (file_path : Option String) (now : Nat) :
    DecisionRecord :=
  { key := ⟨sanitized_input, tool_name, roleNameOf session⟩
    decision := .deny
    metadata :=
      { tier := .default
        confidence := 1
        reason := "no cascade tier resolved; default deny"
        matched_key := none
        similarity_score := none }
    timestamp := now
    scope := .project
    file_path := file_path
    session_id := session.org ++ "/" ++ session.project ++ "/" ++ session.user }

/-- `CascadeRunner::extract_file_path` (`mod.rs` lines 169-191). -/
def extract_file_path (tool_name : String) (tool_input : ToolInput) :
    Option String :=
  if tool_name = "Write" || tool_name = "Edit" || tool_name = "Read" then
    tool_input.fields "file_path"
  else if tool_name = "Glob" || tool_name = "Grep" then
    tool_input.fields "path"
  else if tool_name = "Bash" then none
  else if tool_name = "NotebookEdit" then tool_input.fields "notebook_path"
  else none

/-- The `CascadeInput` the runner builds (`mod.rs` lines 78-92): serialize
the tool input, sanitize it, extract the primary file path. The sanitizer
(`src/sanitize.rs`, not in the source tree) is a parameter. -/
def buildInput (sanitize : String → String) (session : SessionContext)
    (tool_name : String) (tool_input : ToolInput) (cwd : Option String) :
    CascadeInput :=
  { session := session
    tool_name := tool_name
    tool_input := tool_input
    sanitized_input := sanitize tool_input.raw
    file_path := extract_file_path tool_name tool_input
    cwd := cwd }

/-- `CascadeRunner::evaluate_with_cwd` (`mod.rs` lines 71-166): build the
input, run the tier loop, and if nothing resolved emit and persist the
`Default`-tier deny record. -/
def evaluate_with_cwd (sanitize : String → String) (tiers : List Tier)
    (session : SessionContext) (tool_name : String) (tool_input : ToolInput)
    (cwd : Option String) (st : RunnerState) (now : Nat) :
    Except CaptainHookError (DecisionRecord × RunnerState) :=
  let input := buildInput sanitize session tool_name tool_input cwd
  match cascadeLoop session tiers input st with
  | .error e => .error e
  | .ok (some (r, st')) => .ok (r, st')
  | .ok none =>
    let record := defaultRecord session tool_name input.sanitized_input
      input.file_path now
    .ok (record, persist_decision st record)

/-- `SupervisorRequest` from `src/cascade/supervisor.rs` lines 13-23. -/
structure SupervisorRequest where
  session_id : String
  role : String
  role_description : String
  tool_name : String
  sanitized_input : String
  file_path : Option String
  task_description : Option String
  agent_prompt_path : Option String
  cwd : String
deriving DecidableEq, Repr

/-- The confidence thresholds of `policy.yml` (`confidence.{org,project,user}`,
§6 of the spec). Modelled from the spec: `src/config` policy parsing is not
in the source tree; only the fields the cascade sources read are kept. -/
structure PolicyConfidence where
  org : ℚ
  project : ℚ
  user : ℚ
deriving DecidableEq, Repr

/-- `PolicyConfig` restricted to the fields the cascade sources read.
Modelled from the spec: `src/config` is not in the source tree. -/
structure PolicyConfig where
  confidence : PolicyConfidence
  human_timeout_secs : Nat
  registration_timeout_secs : Nat
deriving DecidableEq, Repr

/-- The request `SupervisorTier::evaluate` builds (`supervisor.rs` lines
321-349): role name defaults to `"*"`, description to `""`; `session_id`
and `cwd` are left empty for the runner to fill. -/
def buildSupervisorRequest (input : CascadeInput) : SupervisorRequest :=
  { session_id := ""
    role := roleNameOf input.session
    role_description :=
      ((input.session.role.map (fun r => r.description)).getD "")
    tool_name := input.tool_name
    sanitized_input := input.sanitized_input
    file_path := input.file_path
    task_description := input.session.task_description
    agent_prompt_path := input.session.agent_prompt_path
    cwd := "" }

/-- `SupervisorTier::evaluate` (`supervisor.rs` lines 315-368): delegate to
the backend; any backend error is logged and turned into fall-through; a
record whose confidence is below `policy.confidence.project` also falls
through; otherwise the tier resolves with the backend's record. The backend
(`SupervisorBackend::evaluate`, an IPC or HTTP call) is a parameter. -/
def supervisorEvaluate
    (backend : SupervisorRequest → Except CaptainHookError DecisionRecord)
    (policy : PolicyConfig) (input : CascadeInput) :
    Except CaptainHookError (Option DecisionRecord) :=
  let request := buildSupervisorRequest input
  match backend request with
  | .error _ => .ok none
  | .ok record =>
    if record.metadata.confidence < policy.confidence.project then .ok none
    else .ok (some record)

/-- `PendingDecision` from `src/cascade/human.rs` lines 17-28 (the
supervisor recommendation is kept abstract as its optional presence). -/
structure PendingDecision where
  id : String
  session_id : String
  role : String
  tool_name : String
  sanitized_input : String
  file_path : Option String
  is_ask_reprompt : Bool
  ask_reason : Option String
  queued_at : Nat
deriving DecidableEq, Repr

/-- `HumanResponse` from `src/cascade/human.rs` lines 40-45. -/
structure HumanResponse where
  decision : Decision
  always_ask : Bool
  add_rule : Bool
  rule_scope : Option ScopeLevel
deriving DecidableEq, Repr

/-- `QueueFileState` from `src/cascade/human.rs` lines 49-52: the pending
and response maps of the shared queue file. The Rust `HashMap`s are
modelled as association lists. -/
structure QueueFileState where
  pending : List (String × PendingDecision)
  responses : List (String × HumanResponse)
deriving DecidableEq, Repr

/-- `HashMap::get` on an association list. -/
def alLookup {α : Type} (l : List (String × α)) (k : String) : Option α :=
  (l.find? (fun p => p.1 = k)).map (fun p => p.2)

/-- `HashMap::remove` on an association list. -/
def alRemove {α : Type} (l : List (String × α)) (k : String) :
    List (String × α) :=
  l.filter (fun p => ¬ p.1 = k)

/-- `HashMap::insert` on an association list (replace any existing entry). -/
def alInsert {α : Type} (l : List (String × α)) (k : String) (v : α) :
    List (String × α) :=
  alRemove l k ++ [(k, v)]

/-- The outcome of `DecisionQueue::wait_for_response`: the returned result,
the in-memory `completed` and `pending` maps after the call, the content of
the last `save_queue_file` write (if any), and how many `load_queue_file`
reads were consumed. -/
structure WaitResult where
  result : Except CaptainHookError HumanResponse
  completed : List (String × HumanResponse)
  memPending : List (String × PendingDecision)
  lastSave : Option QueueFileState
  loadsUsed : Nat

/-- The two response checks at the head of each iteration of
`DecisionQueue::wait_for_response` (`human.rs` lines 155-169): consult the
in-memory completed map first (`take_response`, which removes the entry),
then re-read the shared file; a response found there is removed from the
file's response and pending maps and the file saved back, and the
in-memory pending entry removed. `some` means the wait returns with that
outcome; `none` means neither check found a response.
`loads : Nat → QueueFileState` gives the file content seen by the n-th
`load_queue_file` call, modelling concurrent writers; `li` is the index of
the next load. -/
def pollOnce (loads : Nat → QueueFileState) (id : String)
    (completed : List (String × HumanResponse))
    (memPending : List (String × PendingDecision)) (li : Nat) :
    Option WaitResult :=
  match alLookup completed id with
  | some response =>
    some ⟨.ok response, alRemove completed id, memPending, none, li⟩
  | none =>
    let state := loads li
    match alLookup state.responses id with
    | some response =>
      let state' : QueueFileState :=
        ⟨alRemove state.pending id, alRemove state.responses id⟩
      some ⟨.ok response, completed, alRemove memPending id, some state',
        li + 1⟩
    | none => none

/-- `DecisionQueue::wait_for_response` (`human.rs` lines 150-187): on each
iteration run the two response checks; when they find nothing and the
wall-clock deadline has passed (modelled as an exhausted poll budget
`remaining`, one unit per 200 ms sleep), remove the pending entry from
memory, re-read the file, remove the entry from its pending map, save the
file, and return `HumanTimeout`; otherwise sleep and repeat. -/
def waitLoop (loads : Nat → QueueFileState) (id : String)
    (timeout_secs : Nat) (completed : List (String × HumanResponse))
    (memPending : List (String × PendingDecision)) (li : Nat)
    (remaining : Nat) : WaitResult :=
  match pollOnce loads id completed memPending li with
  | some w => w
  | none =>
    match remaining with
    | 0 =>
      let state2 := loads (li + 1)
      let state2' : QueueFileState :=
        ⟨alRemove state2.pending id, state2.responses⟩
      ⟨.error (.humanTimeout timeout_secs), completed,
        alRemove memPending id, some state2', li + 2⟩
    | remaining' + 1 =>
      waitLoop loads id timeout_secs completed memPending (li + 1) remaining'

/-- The record `HumanTier::evaluate` builds from a human response
(`human.rs` lines 249-274): the recorded decision is `Ask` when
`always_ask` is set, otherwise the response's decision; the scope is the
response's `rule_scope`, defaulting to `Project`. -/
def humanRecord (input : CascadeInput) (role_name : String)
    (response : HumanResponse) (now : Nat) : DecisionRecord :=
  { key := ⟨input.sanitized_input, input.tool_name, role_name⟩
    decision := if response.always_ask then .ask else response.decision
    metadata :=
      { tier := .human
        confidence := 1
        reason := "human decision: " ++ response.decision.display
        matched_key := none
        similarity_score := none }
    timestamp := now
    scope := response.rule_scope.getD .project
    file_path := input.file_path
    session_id := "" }

/-- The environment of one `HumanTier::evaluate` call: the queue's in-memory
maps at entry, the sequence of shared-file snapshots seen by successive
`load_queue_file` calls, the poll budget, and the clock value used for the
pending id and timestamps. -/
structure HumanEnv where
  completed : List (String × HumanResponse)
  memPending : List (String × PendingDecision)
  loads : Nat → QueueFileState
  timeout_secs : Nat
  pollBudget : Nat
  now : Nat

/-- `HumanTier::evaluate` (`human.rs` lines 212-275): build the pending
decision (id `role-tool-now`), enqueue it (in memory and in the file, which
consumes one `load_queue_file`), wait for a response, and on success return
the record built by `humanRecord`. Errors from the wait (human timeout)
propagate via `?`. -/
def humanEvaluate (env : HumanEnv) (input : CascadeInput) :
    Except CaptainHookError (Option DecisionRecord) :=
  let role_name := roleNameOf input.session
  let id := role_name ++ "-" ++ input.tool_name ++ "-" ++ toString env.now
  let pending : PendingDecision :=
    { id := id
      session_id := ""
      role := role_name
      tool_name := input.tool_name
      sanitized_input := input.sanitized_input
      file_path := input.file_path
      is_ask_reprompt := false
      ask_reason := none
      queued_at := env.now }
  let memPending' := alInsert env.memPending id pending
  let w := waitLoop env.loads id env.timeout_secs env.completed memPending'
    1 env.pollBudget
  match w.result with
  | .error e => .error e
  | .ok response => .ok (some (humanRecord input role_name response env.now))

/-- `HumanTier::evaluate` as a cascade tier for a fixed queue environment. -/
def humanTierFn (env : HumanEnv) : Tier :=
  fun input => humanEvaluate env input

/-- `true` unless the tier outcome is `Ok(None)` (fall-through). -/
def notFallThrough
    (r : Except CaptainHookError (Option (DecisionRecord × RunnerState))) :
    Bool :=
  match r with
  | .ok none => false
  | _ => true

/-- `HookInput` from `src/hook_io.rs`: the fields `check::run` reads. -/
structure HookInput where
  session_id : String
  tool_name : String
  tool_input : ToolInput
  cwd : String

/-- The observable effects of `check::run`, in order of occurrence. -/
inductive CheckEvent where
  | wroteOutput (d : Decision)
  | waitedForRegistration
  | builtCascadeRunner
  | ranCascade
  | exited (code : Nat)
deriving DecidableEq, Repr

/-- The environment of one `check::run` invocation. Modelled from the spec:
`src/hook_io.rs` reading, `PolicyConfig::load_project`, the
`SessionManager` (`src/session.rs`) and the storage loading are not fully
in the source tree; each collaborator is modelled by its outcome. Writes to
stdout are modelled as always succeeding. -/
structure CheckEnv where
  readInput : Except CaptainHookError HookInput
  loadPolicy : Except CaptainHookError PolicyConfig
  isDisabled : String → Bool
  isRegistered : String → Bool
  waitForRegistration : Except CaptainHookError Unit
  getOrPopulate : Except CaptainHookError SessionContext
  cascadeOutcome : Except CaptainHookError DecisionRecord

/-- `check::run` (`src/cli/check.rs` lines 22-169) as an event trace: read
the hook input, load the policy, and if the session is disabled write an
`allow` decision and return success at once; otherwise wait for
registration if needed, deny a role-less session, build the cascade runner,
run the cascade, write the resulting decision (deny on cascade error, with
exit code 1). -/
def checkRun (env : CheckEnv) :
    Except CaptainHookError (List CheckEvent) :=
  match env.readInput with
  | .error e => .error e
  | .ok input =>
    match env.loadPolicy with
    | .error e => .error e
    | .ok _policy =>
      if env.isDisabled input.session_id then
        .ok [.wroteOutput .allow]
      else
        let regEvents : Except CaptainHookError (List CheckEvent) :=
          if env.isRegistered input.session_id then .ok []
          else
            match env.waitForRegistration with
            | .error e => .error e
            | .ok _ => .ok [.waitedForRegistration]
        match regEvents with
        | .error e => .error e
        | .ok evs =>
          match env.getOrPopulate with
          | .error e => .error e
          | .ok session =>
            if session.role.isNone && !session.disabled then
              .ok (evs ++ [.wroteOutput .deny])
            else
              match env.cascadeOutcome with
              | .error _ =>
                .ok (evs ++ [.builtCascadeRunner, .ranCascade,
                  .wroteOutput .deny, .exited 1])
              | .ok record =>
                if record.decision = .deny then
                  .ok (evs ++ [.builtCascadeRunner, .ranCascade,
                    .wroteOutput record.decision, .exited 1])
                else
                  .ok (evs ++ [.builtCascadeRunner, .ranCascade,
                    .wroteOutput record.decision])

/-! Concrete fixtures, mirroring the repository's own integration tests
(`tests/cascade_integration.rs`): a role whose `deny_write` and
`sensitive_ask_write` sets overlap on `.env`, a plain session, and a
supervisor-tier allow record. -/

/-- A compiled policy where `.env` is both denied for write and sensitive
(as in the `cascade_deny_wins_over_ask` integration test). -/
def polW : CompiledPathPolicy where
  allow_write := fun _ => true
  deny_write := fun p => p = ".env"
  allow_read := fun _ => true
  sensitive_ask_write := fun p => p = ".env"

/-- A compiled policy whose `allow_read` set contains only `ok`. -/
def polR : CompiledPathPolicy where
  allow_write := fun _ => false
  deny_write := fun _ => false
  allow_read := fun p => p = "ok"
  sensitive_ask_write := fun p => p = ".env"

/-- A registered session with role `coder`. -/
def sessW : SessionContext where
  user := "u"
  org := "o"
  project := "p"
  role := some ⟨"coder", "writes code"⟩
  path_policy := none
  agent_prompt_path := none
  task_description := none
  disabled := false

/-- A tool input whose serialization is the empty JSON object. -/
def toolInputW : ToolInput where
  raw := "\x7b\x7d"
  fields := fun _ => none

/-- A cascade input for a `Bash` call under `sessW`. -/
def inputW : CascadeInput where
  session := sessW
  tool_name := "Bash"
  tool_input := toolInputW
  sanitized_input := "\x7b\x7d"
  file_path := none
  cwd := none

/-- A supervisor-tier allow record with confidence 0.95 (as built by the
integration tests' stub supervisor). -/
def recW : DecisionRecord where
  key := ⟨"\x7b\x7d", "Bash", "coder"⟩
  decision := .allow
  metadata :=
    { tier := .supervisor
      confidence := 19/20
      reason := "test supervisor allows"
      matched_key := none
      similarity_score := none }
  timestamp := 0
  scope := .project
  file_path := none
  session_id := ""

/-- A policy with project confidence threshold 0.7 (the spec's default). -/
def policyW : PolicyConfig where
  confidence := ⟨9/10, 7/10, 1/2⟩
  human_timeout_secs := 300
  registration_timeout_secs := 5

/-- A tier that always falls through, as the integration tests' noop
supervisor and noop human do. -/
def noopTier : Tier := fun _ => .ok none

/-- A pending decision fixture for the queue. -/
def pendW : PendingDecision where
  id := "x"
  session_id := ""
  role := "coder"
  tool_name := "Bash"
  sanitized_input := "\x7b\x7d"
  file_path := none
  is_ask_reprompt := false
  ask_reason := none
  queued_at := 0

/-- A human response choosing `allow` with a `user` rule scope but with
`add_rule` unset. -/
def respW : HumanResponse where
  decision := .allow
  always_ask := false
  add_rule := false
  rule_scope := some .user

/-- A hook input fixture for the `check` subcommand. -/
def hookInW : HookInput where
  session_id := "s1"
  tool_name := "Bash"
  tool_input := toolInputW
  cwd := "/w"

/-- A check environment whose session is disabled. -/
def envW : CheckEnv where
  readInput := .ok hookInW
  loadPolicy := .ok policyW
  isDisabled := fun _ => true
  isRegistered := fun _ => false
  waitForRegistration := .ok ()
  getOrPopulate := .ok sessW
  cascadeOutcome := .ok recW

/-! Theorems. -/

/-- Within a single path's if/else chain, `sensitive_ask_write` dominates:
a write-target path matching both the sensitive and the deny set gets the
verdict `ask`. Helper shared by the path-policy theorems. -/
theorem pathVerdict_sensitive_write (policy : CompiledPathPolicy)
    (path : String) (hs : policy.sensitive_ask_write path = true) :
    pathVerdict policy false path = some Decision.ask := by
  simp [pathVerdict, hs]

/-- C1: for a write-like tool call, a single extracted path matching both
the role's `sensitive_ask_write` set and its `deny_write` set gets the
per-path verdict `ask`, not `deny`, because the if/else chain checks
`sensitive_ask_write` before `deny_write`. -/
theorem c1_sensitive_shadows_deny (policy : CompiledPathPolicy)
    (path : String) (hs : policy.sensitive_ask_write path = true)
    (_hd : policy.deny_write path = true) :
    pathVerdict policy false path = some Decision.ask ∧
      pathVerdict policy false path ≠ some Decision.deny := by
  have h := pathVerdict_sensitive_write policy path hs
  exact ⟨h, by rw [h]; intro hcontra; cases hcontra⟩

/-- Witness for C1 at the integration-test fixture: `.env` matches both the
sensitive and the deny set of `polW` and its verdict is `ask`. -/
theorem c1_witness :
    polW.sensitive_ask_write ".env" = true ∧ polW.deny_write ".env" = true ∧
      pathVerdict polW false ".env" = some Decision.ask :=
  ⟨by decide, by decide,
    (c1_sensitive_shadows_deny polW ".env" (by decide) (by decide)).1⟩

/-- One step of the most-restrictive-wins loop computes the
most-restrictive combination of the accumulator and the path's verdict.
Helper for C2. -/
theorem worstStep_decision (policy : CompiledPathPolicy) (ro : Bool)
    (acc : WorstAcc) (path : String) :
    (worstStep policy ro acc path).worst_decision =
      match pathVerdict policy ro path with
      | none => acc.worst_decision
      | some d =>
        match acc.worst_decision with
        | none => some d
        | some c => some (specMostRestrictivePair c d) := by
  unfold worstStep specMostRestrictivePair
  cases h : pathVerdict policy ro path with
  | none => simp
  | some d =>
    cases hw : acc.worst_decision with
    | none => simp
    | some c =>
      by_cases hlt : c.precedence < d.precedence
      · simp [hw, hlt]
      · simp [hw, hlt]

/-- The fold underlying the loop agrees with the spec's `max` fold for any
starting accumulator. Helper for C2. -/
theorem worstOf_fold_spec (policy : CompiledPathPolicy) (ro : Bool)
    (paths : List String) :
    ∀ acc : WorstAcc,
      (paths.foldl (worstStep policy ro) acc).worst_decision =
        (paths.filterMap (pathVerdict policy ro)).foldl
          (fun a d =>
            match a with
            | none => some d
            | some c => some (specMostRestrictivePair c d))
          acc.worst_decision := by
  induction paths with
  | nil => intro acc; rfl
  | cons p ps ih =>
    intro acc
    rw [List.foldl_cons, List.filterMap_cons]
    cases h : pathVerdict policy ro p with
    | none =>
      have hstep : worstStep policy ro acc p = acc := by
        unfold worstStep; rw [h]
      rw [hstep]
      exact ih acc
    | some d =>
      rw [List.foldl_cons, ih (worstStep policy ro acc p),
        worstStep_decision, h]

/-- C2: for every set of paths extracted from one call, the decision the
path-policy tier reports equals the most restrictive (under
`allow < ask < deny`) of the per-path verdicts of the paths that produced a
verdict; paths without a verdict contribute nothing, and with no verdicts
at all the tier falls through (`none`). -/
theorem c2_most_restrictive_wins (policy : CompiledPathPolicy) (ro : Bool)
    (paths : List String) :
    pathPolicyDecision policy ro paths =
      specMostRestrictive (paths.filterMap (pathVerdict policy ro)) := by
  unfold pathPolicyDecision worstOf specMostRestrictive
  exact worstOf_fold_spec policy ro paths ⟨none, "", ""⟩

/-- C8: for a path evaluated for a read-like tool, the verdict is `ask` if
the path matches `sensitive_ask_write`; otherwise no verdict (implicit
allow) if it matches `allow_read`; otherwise `deny`. -/
theorem c8_read_verdict (policy : CompiledPathPolicy) (path : String) :
    (policy.sensitive_ask_write path = true →
      pathVerdict policy true path = some Decision.ask) ∧
    (policy.sensitive_ask_write path = false →
      policy.allow_read path = true → pathVerdict policy true path = none) ∧
    (policy.sensitive_ask_write path = false →
      policy.allow_read path = false →
      pathVerdict policy true path = some Decision.deny) :=
  ⟨fun hs => by simp [pathVerdict, hs],
    fun hs ha => by simp [pathVerdict, hs, ha],
    fun hs ha => by simp [pathVerdict, hs, ha]⟩

/-- Witness for C8: each of the three read-path cases realized on the
fixture policy `polR`. -/
theorem c8_witness :
    pathVerdict polR true ".env" = some Decision.ask ∧
      pathVerdict polR true "ok" = none ∧
      pathVerdict polR true "secrets.txt" = some Decision.deny :=
  ⟨(c8_read_verdict polR ".env").1 (by decide),
    (c8_read_verdict polR "ok").2.1 (by decide) (by decide),
    (c8_read_verdict polR "secrets.txt").2.2 (by decide) (by decide)⟩

/-- C3: after any cascade tier resolves, the runner's persistence action
depends only on the resolving tier recorded on the decision: an
`ExactCache` hit persists nothing; a `TokenJaccard` or
`EmbeddingSimilarity` hit inserts the record into the exact cache and
nothing else (storage, token and embedding indices untouched); every other
resolving tier saves to JSONL storage and inserts into all three
in-memory indices. -/
theorem c3_persistence_by_tier (session : SessionContext)
    (tiers : List Tier) (input : CascadeInput) (st : RunnerState)
    (r : DecisionRecord) (st' : RunnerState)
    (h : cascadeLoop session tiers input st = .ok (some (r, st'))) :
    (r.metadata.tier = .exactCache → st' = st) ∧
    ((r.metadata.tier = .tokenJaccard ∨
        r.metadata.tier = .embeddingSimilarity) →
      st' = insertExact st r ∧ st'.storage = st.storage ∧
        st'.token_index = st.token_index ∧
        st'.embed_index = st.embed_index) ∧
    (r.metadata.tier ≠ .exactCache → r.metadata.tier ≠ .tokenJaccard →
      r.metadata.tier ≠ .embeddingSimilarity →
      st' = persist_decision st r) := by
  induction tiers with
  | nil => cases h
  | cons t rest ih =>
    unfold cascadeLoop at h
    cases ht : t input with
    | error e => rw [ht] at h; cases h
    | ok o =>
      rw [ht] at h
      cases o with
      | none => exact ih h
      | some record0 =>
        simp only [Except.ok.injEq, Option.some.injEq, Prod.mk.injEq] at h
        obtain ⟨hr, hst⟩ := h
        subst hr
        refine ⟨fun htier => ?_, fun htier => ?_, fun h1 h2 h3 => ?_⟩
        · rw [← hst]; unfold persistStep; rw [htier]
        · rw [← hst]; unfold persistStep
          rcases htier with htier | htier <;> rw [htier] <;>
            exact ⟨rfl, rfl, rfl, rfl⟩
        · rw [← hst]; unfold persistStep
          cases hcase : (fillSessionId session record0).metadata.tier <;>
            first
            | rfl
            | (exact absurd hcase h1)
            | (exact absurd hcase h2)
            | (exact absurd hcase h3)

/-- Witness for C3 at a supervisor-tier record: the full-persist branch of
the dispatch, reached through the loop with a single resolving tier. -/
theorem c3_witness :
    persistStep ⟨[], [], [], []⟩ (fillSessionId sessW recW) =
      persist_decision ⟨[], [], [], []⟩ (fillSessionId sessW recW) :=
  (c3_persistence_by_tier sessW [fun _ => .ok (some recW)] inputW
      ⟨[], [], [], []⟩ (fillSessionId sessW recW)
      (persistStep ⟨[], [], [], []⟩ (fillSessionId sessW recW)) rfl).2.2
    (by decide) (by decide) (by decide)

/-- All tiers falling through makes the loop report `none`. Helper for C4. -/
theorem cascadeLoop_all_fall_through (session : SessionContext)
    (input : CascadeInput) (st : RunnerState) :
    ∀ tiers : List Tier, (∀ t ∈ tiers, t input = .ok none) →
      cascadeLoop session tiers input st = .ok none := by
  intro tiers
  induction tiers with
  | nil => intro _; rfl
  | cons t rest ih =>
    intro h
    unfold cascadeLoop
    rw [h t (List.mem_cons_self t rest)]
    exact ih fun t' ht' => h t' (List.mem_cons_of_mem t ht')

/-- Counterexample for C4 as stated: with six fall-through tiers the runner
does emit a `Default`-tier deny record, but its reason string is
`no cascade tier resolved; default deny`, not the claim's
`no cascade tier resolved`. -/
theorem c4_counterexample :
    ((evaluate_with_cwd id (List.replicate 6 noopTier) sessW "Bash"
          toolInputW none ⟨[], [], [], []⟩ 0).toOption.map
        (fun p => (p.1.metadata.tier, p.1.decision, p.1.metadata.reason))) =
      some (.default, .deny, "no cascade tier resolved; default deny") ∧
      ("no cascade tier resolved; default deny" : String) ≠
        "no cascade tier resolved" := by
  constructor
  · rfl
  · decide

/-- C4 (amended): for every tool call on which all tiers fall through, the
cascade runner returns the `Default`-tier record with decision `deny`,
reason `no cascade tier resolved; default deny`, confidence 1.0 and scope
`project`, and persists that record to storage and all three indices. -/
theorem c4_default_deny (sanitize : String → String) (tiers : List Tier)
    (session : SessionContext) (tool_name : String) (tool_input : ToolInput)
    (cwd : Option String) (st : RunnerState) (now : Nat)
    (h : ∀ t ∈ tiers,
      t (buildInput sanitize session tool_name tool_input cwd) = .ok none) :
    evaluate_with_cwd sanitize tiers session tool_name tool_input cwd st now =
      .ok (defaultRecord session tool_name (sanitize tool_input.raw)
            (extract_file_path tool_name tool_input) now,
          persist_decision st
            (defaultRecord session tool_name (sanitize tool_input.raw)
              (extract_file_path tool_name tool_input) now)) ∧
    (defaultRecord session tool_name (sanitize tool_input.raw)
        (extract_file_path tool_name tool_input) now).metadata.tier =
      .default ∧
    (defaultRecord session tool_name (sanitize tool_input.raw)
        (extract_file_path tool_name tool_input) now).decision = .deny ∧
    (defaultRecord session tool_name (sanitize tool_input.raw)
        (extract_file_path tool_name tool_input) now).metadata.reason =
      "no cascade tier resolved; default deny" ∧
    (defaultRecord session tool_name (sanitize tool_input.raw)
        (extract_file_path tool_name tool_input) now).metadata.confidence
      = 1 ∧
    (defaultRecord session tool_name (sanitize tool_input.raw)
        (extract_file_path tool_name tool_input) now).scope = .project := by
  refine ⟨?_, rfl, rfl, rfl, rfl, rfl⟩
  simp only [evaluate_with_cwd]
  rw [cascadeLoop_all_fall_through session
    (buildInput sanitize session tool_name tool_input cwd) st tiers h]
  rfl

/-- Witness for C4 (amended) with six noop tiers on the fixture call. -/
theorem c4_witness :
    evaluate_with_cwd id (List.replicate 6 noopTier) sessW "Bash" toolInputW
        none ⟨[], [], [], []⟩ 0 =
      .ok (defaultRecord sessW "Bash" (id toolInputW.raw)
            (extract_file_path "Bash" toolInputW) 0,
          persist_decision ⟨[], [], [], []⟩
            (defaultRecord sessW "Bash" (id toolInputW.raw)
              (extract_file_path "Bash" toolInputW) 0)) :=
  (c4_default_deny id (List.replicate 6 noopTier) sessW "Bash" toolInputW
      none ⟨[], [], [], []⟩ 0
      (fun t ht => by rw [List.eq_of_mem_replicate ht]; rfl)).1

/-- C5: the supervisor tier falls through exactly when the backend errors
or returns a record whose confidence is strictly below
`policy.confidence.project`; otherwise it resolves with the backend's
record; and a backend error is never propagated as a cascade error. -/
theorem c5_supervisor_gate
    (backend : SupervisorRequest → Except CaptainHookError DecisionRecord)
    (policy : PolicyConfig) (input : CascadeInput) :
    (supervisorEvaluate backend policy input = .ok none ↔
      (∃ e, backend (buildSupervisorRequest input) = .error e) ∨
      (∃ r, backend (buildSupervisorRequest input) = .ok r ∧
        r.metadata.confidence < policy.confidence.project)) ∧
    (∀ r, backend (buildSupervisorRequest input) = .ok r →
      ¬ r.metadata.confidence < policy.confidence.project →
      supervisorEvaluate backend policy input = .ok (some r)) ∧
    (∀ e, supervisorEvaluate backend policy input ≠ .error e) := by
  cases hb : backend (buildSupervisorRequest input) with
  | error e =>
    have hval : supervisorEvaluate backend policy input = .ok none := by
      simp only [supervisorEvaluate]; rw [hb]
    refine ⟨⟨fun _ => .inl ⟨e, rfl⟩, fun _ => hval⟩, ?_, ?_⟩
    · intro r hr; cases hr
    · intro e' hcontra; rw [hval] at hcontra; cases hcontra
  | ok record =>
    by_cases hc : record.metadata.confidence < policy.confidence.project
    · have hval : supervisorEvaluate backend policy input = .ok none := by
        simp only [supervisorEvaluate]; rw [hb]; simp [hc]
      refine ⟨⟨fun _ => .inr ⟨record, rfl, hc⟩, fun _ => hval⟩, ?_, ?_⟩
      · intro r hr hnc
        obtain rfl : record = r := by injection hr
        exact absurd hc hnc
      · intro e' hcontra; rw [hval] at hcontra; cases hcontra
    · have hval : supervisorEvaluate backend policy input =
          .ok (some record) := by
        simp only [supervisorEvaluate]; rw [hb]; simp [hc]
      refine ⟨⟨fun habs => ?_, fun hcase => ?_⟩, ?_, ?_⟩
      · rw [hval] at habs; simp at habs
      · rcases hcase with ⟨e, he⟩ | ⟨r, hr, hlt⟩
        · cases he
        · obtain rfl : record = r := by injection hr
          exact absurd hlt hc
      · intro r hr hnc
        obtain rfl : record = r := by injection hr
        exact hval
      · intro e' hcontra; rw [hval] at hcontra; cases hcontra

/-- Witness for C5: a backend returning confidence 0.95 against a 0.7
project threshold resolves with the backend's record. -/
theorem c5_witness :
    supervisorEvaluate (fun _ => .ok recW) policyW inputW =
      .ok (some recW) :=
  (c5_supervisor_gate (fun _ => .ok recW) policyW inputW).2.1 recW rfl
    (by norm_num [recW, policyW])

/-- Removing a key from an association list makes its lookup `none`.
Helper for the queue theorems. -/
theorem alLookup_remove {α : Type} (l : List (String × α)) (k : String) :
    alLookup (alRemove l k) k = none := by
  induction l with
  | nil => rfl
  | cons p rest ih =>
    by_cases h : p.1 = k
    · have hstep : alRemove (p :: rest) k = alRemove rest k := by
        simp [alRemove, List.filter_cons, h]
      rw [hstep]; exact ih
    · have hstep : alRemove (p :: rest) k = p :: alRemove rest k := by
        simp [alRemove, List.filter_cons, h]
      rw [hstep]
      simpa [alLookup, List.find?_cons, h] using ih

/-- When neither the in-memory completed map nor the current file snapshot
holds a response for `id`, the poll finds nothing. Helper for C6. -/
theorem pollOnce_none (loads : Nat → QueueFileState) (id : String)
    (completed : List (String × HumanResponse))
    (memPending : List (String × PendingDecision)) (li : Nat)
    (hc : alLookup completed id = none)
    (hf : alLookup (loads li).responses id = none) :
    pollOnce loads id completed memPending li = none := by
  simp only [pollOnce, hc, hf]

/-- C6: when no response for `id` ever arrives (neither in the in-memory
completed map nor in any snapshot of the shared queue file) within the
poll budget, `wait_for_response` returns the `HumanTimeout` error, the
in-memory pending map no longer holds `id`, and the last state written to
the shared queue file has no pending entry for `id`. -/
theorem c6_timeout_removes_pending (loads : Nat → QueueFileState)
    (id : String) (timeout_secs : Nat)
    (completed : List (String × HumanResponse))
    (memPending : List (String × PendingDecision)) (li remaining : Nat)
    (hc : alLookup completed id = none)
    (hf : ∀ k, alLookup (loads k).responses id = none) :
    (waitLoop loads id timeout_secs completed memPending li
          remaining).result = .error (.humanTimeout timeout_secs) ∧
      alLookup (waitLoop loads id timeout_secs completed memPending li
          remaining).memPending id = none ∧
      ∃ f, (waitLoop loads id timeout_secs completed memPending li
            remaining).lastSave = some f ∧ alLookup f.pending id = none := by
  induction remaining generalizing li with
  | zero =>
    rw [waitLoop.eq_1,
      pollOnce_none loads id completed memPending li hc (hf li)]
    exact ⟨rfl, alLookup_remove _ _, ⟨_, rfl, alLookup_remove _ _⟩⟩
  | succ r ih =>
    rw [waitLoop.eq_2,
      pollOnce_none loads id completed memPending li hc (hf li)]
    exact ih (li + 1)

/-- Witness for C6: a two-poll wait on an always-empty queue file times out
and leaves no pending entry for the enqueued id. -/
theorem c6_witness :
    (waitLoop (fun _ => (⟨[], []⟩ : QueueFileState)) "x" 5 [] [("x", pendW)]
          0 2).result = .error (.humanTimeout 5) ∧
      alLookup (waitLoop (fun _ => (⟨[], []⟩ : QueueFileState)) "x" 5 []
          [("x", pendW)] 0 2).memPending "x" = none ∧
      ∃ f, (waitLoop (fun _ => (⟨[], []⟩ : QueueFileState)) "x" 5 []
            [("x", pendW)] 0 2).lastSave = some f ∧
          alLookup f.pending "x" = none :=
  c6_timeout_removes_pending (fun _ => (⟨[], []⟩ : QueueFileState)) "x" 5 []
    [("x", pendW)] 0 2 rfl (fun _ => rfl)

/-- Counterexample for C7 as stated: a response with `add_rule` unset but
`rule_scope = user` yields a record with scope `user`, not `project` —
the code honours `rule_scope` regardless of `add_rule`. -/
theorem c7_counterexample :
    respW.add_rule = false ∧
      (humanRecord inputW "coder" respW 0).scope = ScopeLevel.user ∧
      ScopeLevel.user ≠ ScopeLevel.project :=
  ⟨rfl, rfl, by decide⟩

/-- C7 (amended): when the human tier receives a response, the decision
recorded is `ask` whenever `always_ask` is set (otherwise the response's
own decision), and the record's scope is the response's `rule_scope`
whenever one is present (regardless of `add_rule`) and `project`
otherwise. -/
theorem c7_response_application (input : CascadeInput) (role_name : String)
    (response : HumanResponse) (now : Nat) :
    ((humanRecord input role_name response now).decision =
        if response.always_ask then Decision.ask else response.decision) ∧
      (humanRecord input role_name response now).scope =
        response.rule_scope.getD ScopeLevel.project :=
  ⟨rfl, rfl⟩

/-- C9: a `check` invocation whose session is marked disabled writes an
`allow` decision and returns success immediately; the trace contains no
cascade construction and no cascade run. -/
theorem c9_disabled_session_allows (env : CheckEnv) (input : HookInput)
    (policy : PolicyConfig) (hr : env.readInput = .ok input)
    (hp : env.loadPolicy = .ok policy)
    (hd : env.isDisabled input.session_id = true) :
    checkRun env = .ok [CheckEvent.wroteOutput .allow] ∧
      ∀ evs, checkRun env = .ok evs →
        CheckEvent.builtCascadeRunner ∉ evs ∧
          CheckEvent.ranCascade ∉ evs := by
  have hmain : checkRun env = .ok [CheckEvent.wroteOutput .allow] := by
    simp [checkRun, hr, hp, hd]
  refine ⟨hmain, ?_⟩
  intro evs hevs
  rw [hmain] at hevs
  obtain rfl : [CheckEvent.wroteOutput .allow] = evs := by injection hevs
  exact ⟨by decide, by decide⟩

/-- Witness for C9 at the fixture environment with a disabled session. -/
theorem c9_witness :
    checkRun envW = .ok [CheckEvent.wroteOutput .allow] :=
  (c9_disabled_session_allows envW hookInW policyW rfl rfl rfl).1

/-- The human tier never falls through: its evaluate returns a record or
an error. Helper for C10. -/
theorem humanEvaluate_not_fallthrough (env : HumanEnv)
    (input : CascadeInput) : humanEvaluate env input ≠ Except.ok none := by
  intro h
  simp only [humanEvaluate] at h
  split at h <;> simp at h

/-- C10: the human tier's evaluate never returns the fall-through outcome,
so a cascade whose last tier is the human tier never reaches the
all-tiers-fell-through case — the terminal `Default`-deny branch of the
runner is unreachable by fall-through. -/
theorem c10_human_never_falls_through (env : HumanEnv)
    (session : SessionContext) (pre : List Tier) (input : CascadeInput)
    (st : RunnerState) :
    notFallThrough
        (cascadeLoop session (pre ++ [humanTierFn env]) input st) = true := by
  induction pre with
  | nil =>
    simp only [List.nil_append]
    unfold cascadeLoop
    cases h : humanTierFn env input with
    | error e => rfl
    | ok o =>
      cases o with
      | none => exact absurd h (humanEvaluate_not_fallthrough env input)
      | some r => rfl
  | cons t rest ih =>
    simp only [List.cons_append]
    unfold cascadeLoop
    cases ht : t input with
    | error e => rfl
    | ok o =>
      cases o with
      | none => exact ih
      | some r => rfl

end CaptainHook
